import Mathlib

/-!
Verification of the mini-mail server core against its specification.

The Go sources are shallowly embedded: strings are `List Char`, network
reads are explicit lists of chunks, external collaborators (message
parser, SQLite storage, DNS provider, sockets) are parameters or
oracles, and every stateful routine is a pure function threading its
state and returning the trace of its observable effects.
-/

set_option maxRecDepth 10000

/-- Byte strings of the Go code, modelled as lists of characters. -/
abbrev Str := List Char

/-- Go `unicode.IsSpace` restricted to the ASCII range (the characters
the protocol and the claims exercise). -/
def isSpaceGo (c : Char) : Bool :=
  c = ' ' || c = '\t' || c = '\n' || c = '\x0b' || c = '\x0c' || c = '\r'

/-- Drop the trailing characters satisfying `p` (helper for TrimSpace). -/
def dropTrail (p : Char → Bool) (l : Str) : Str :=
  ((l.reverse).dropWhile p).reverse

/-- Go `strings.TrimSpace`. -/
def trimSpace (l : Str) : Str :=
  dropTrail isSpaceGo (l.dropWhile isSpaceGo)

/-- Go `strings.ToUpper` on ASCII input. -/
def toUpperL (l : Str) : Str := l.map Char.toUpper

/-- Go `strings.SplitN(line, " ", 2)` presented as (verb, argument):
the argument is empty when the line holds no space. -/
def splitN2 (l : Str) : Str × Str :=
  match l.dropWhile (fun c => !(c = ' ')) with
  | [] => (l.takeWhile (fun c => !(c = ' ')), [])
  | _ :: t => (l.takeWhile (fun c => !(c = ' ')), t)

/-- Go `strings.Trim(s, "<>")`: strip leading and trailing angle
brackets. -/
def trimAngle (l : Str) : Str :=
  let p : Char → Bool := fun c => c = '<' || c = '>'
  dropTrail p (l.dropWhile p)

/-- `extractEmail` from src/smtp/server.go: TrimSpace then Trim "<>". -/
def extractEmail (l : Str) : Str := trimAngle (trimSpace l)

/-- Go `strings.TrimSuffix`. -/
def tsuf (l s : Str) : Str :=
  if s <:+ l then l.take (l.length - s.length) else l

/-! ## Session Protocol Engine (src/smtp/server.go) -/

/-- Transient per-connection state: `smtpSession.mailFrom` and
`smtpSession.rcptTo`. -/
structure SessState where
  mailFrom : Str
  rcptTo : List Str
deriving DecidableEq, Repr

/-- The zero value of a fresh session, also what `smtpSession.reset`
restores. -/
def initSess : SessState := ⟨[], []⟩

/-- The `MailMessage` record handed to the registered `MailHandler`. -/
structure MailMsg where
  mfrom : Str
  mto : List Str
  subject : Str
  body : Str
  raw : Str
deriving DecidableEq, Repr

def reply220 (dom : Str) : Str := "220 ".data ++ dom ++ " SMTP Service Ready".data
def reply250Hello (dom : Str) : Str := "250 ".data ++ dom ++ " Hello".data
def reply250OK : Str := "250 OK".data
def reply501 : Str := "501 Syntax error".data
def reply354 : Str := "354 Start mail input; end with <CRLF>.<CRLF>".data
def reply221 : Str := "221 Bye".data
def reply500 : Str := "500 Command not recognized".data
def reply550Parse : Str := "550 Failed to parse message".data
def reply550Handle : Str := "550 Failed to process message".data
def reply250Accept : Str := "250 OK: Message accepted for delivery".data

/-- What `processCommand` does after replying: keep looping, stop the
session (QUIT returned false), or enter `receiveData`. -/
inductive CmdAction
  | go
  | quitSess
  | dataMode
deriving DecidableEq, Repr

/-- Result of one `processCommand` call: updated session state, the
reply written, and the control action. -/
structure CmdOut where
  st : SessState
  reply : Str
  action : CmdAction
deriving DecidableEq, Repr

/-- `smtpSession.processCommand` (src/smtp/server.go lines 126-171),
minus the DATA read loop, which the runner below performs. -/
def processCommand (dom : Str) (st : SessState) (line : Str) : CmdOut :=
  let parts := splitN2 line
  let cmd := toUpperL parts.1
  let arg := parts.2
  if cmd = "HELO".data ∨ cmd = "EHLO".data then ⟨st, reply250Hello dom, .go⟩
  else if cmd = "MAIL".data then
    if "FROM:".data <+: toUpperL arg then
      ⟨{ st with mailFrom := extractEmail (arg.drop 5) }, reply250OK, .go⟩
    else ⟨st, reply501, .go⟩
  else if cmd = "RCPT".data then
    if "TO:".data <+: toUpperL arg then
      ⟨{ st with rcptTo := st.rcptTo ++ [extractEmail (arg.drop 3)] }, reply250OK, .go⟩
    else ⟨st, reply501, .go⟩
  else if cmd = "DATA".data then ⟨st, reply354, .dataMode⟩
  else if cmd = "QUIT".data then ⟨st, reply221, .quitSess⟩
  else if cmd = "RSET".data then ⟨initSess, reply250OK, .go⟩
  else if cmd = "NOOP".data then ⟨st, reply250OK, .go⟩
  else ⟨st, reply500, .go⟩

/-- The CRLF form of the data terminator checked by `receiveData`. -/
def term1 : Str := "\r\n.\r\n".data

/-- The LF form of the data terminator checked by `receiveData`. -/
def term2 : Str := "\n.\n".data

/-- `receiveData`'s termination test: the accumulated buffer ends in
`\r\n.\r\n` or `\n.\n`. -/
def isTerm (l : Str) : Bool := decide (term1 <:+ l) || decide (term2 <:+ l)

/-- `receiveData`'s removal of the end marker (two TrimSuffix calls in
source order). -/
def stripTerm (l : Str) : Str := tsuf (tsuf l term1) term2

/-- Observable outcome of a session: replies written on the socket, the
`HandleMail` invocations, and the final session state. -/
structure RunOut where
  replies : List Str
  calls : List MailMsg
  final : SessState
deriving DecidableEq, Repr

def addReply (r : Str) (o : RunOut) : RunOut := { o with replies := r :: o.replies }

def addCall (m : MailMsg) (o : RunOut) : RunOut := { o with calls := m :: o.calls }

/-- `smtpSession.handle` together with `receiveData` and
`processMailData`: one transport read per list element.  `none` is the
command loop, `some buf` is the `receiveData` loop holding the
accumulated `dataBuffer`.  `parse` stands for `mail.ReadMessage` plus
reading the body (`none` = parse failure), `hok` for the handler's
success, `dom` for `Server.Domain`. -/
def runSess (parse : Str → Option (Str × Str)) (hok : MailMsg → Bool) (dom : Str) :
    SessState → Option Str → List Str → RunOut
  | st, none, [] => ⟨[], [], st⟩
  | st, none, chunk :: rest =>
    let line := trimSpace chunk
    if line = [] then runSess parse hok dom st none rest
    else
      let o := processCommand dom st line
      match o.action with
      | .quitSess => ⟨[o.reply], [], o.st⟩
      | .dataMode => addReply o.reply (runSess parse hok dom o.st (some []) rest)
      | .go => addReply o.reply (runSess parse hok dom o.st none rest)
  | st, some _, [] => ⟨[], [], st⟩
  | st, some buf, chunk :: rest =>
    let b := buf ++ chunk
    if isTerm b then
      let data := stripTerm b
      match parse data with
      | none => addReply reply550Parse (runSess parse hok dom initSess none rest)
      | some sb =>
        let m : MailMsg := ⟨st.mailFrom, st.rcptTo, sb.1, sb.2, data⟩
        let rep := if hok m then reply250Accept else reply550Handle
        addReply rep (addCall m (runSess parse hok dom initSess none rest))
    else runSess parse hok dom st (some b) rest

/-- A whole connection: the 220 greeting, then the command loop from the
zero session state. -/
def runServer (parse : Str → Option (Str × Str)) (hok : MailMsg → Bool)
    (dom : Str) (reads : List Str) : RunOut :=
  addReply (reply220 dom) (runSess parse hok dom initSess none reads)

/-- Parser stub accepting every message, with empty subject and the data
itself as body. -/
def parseAll : Str → Option (Str × Str) := fun d => some ([], d)

/-- Handler stub that always succeeds. -/
def hokTrue : MailMsg → Bool := fun _ => true

/-- Domain used in concrete runs. -/
def dom0 : Str := "mail.test".data

/-! ## Domain Store and inbound handler (src/unnamed/part_001, src/main.go) -/

/-- A `mail_domains` row (`storage.MailDomain`). -/
structure MailDomain where
  id : Int
  userID : Int
  subdomain : Str
  fullDomain : Str
  recordID : Str
  email : Str
  createdAt : Nat
deriving DecidableEq, Repr

/-- `SQLiteStorage.GetMailDomainByEmail`: `SELECT ... WHERE email = ?
LIMIT 1` in rowid (insertion) order; no row gives nil, nil. -/
def getMailDomainByEmail (rows : List MailDomain) (email : Str) : Option MailDomain :=
  rows.find? (fun d => decide (d.email = email))

/-- The owner id `MailHandler.HandleMail` settles on for one recipient
address: the matching row's user id, or the sentinel 0 on a miss. -/
def resolveOwner (rows : List MailDomain) (addr : Str) : Int :=
  match getMailDomainByEmail rows addr with
  | some d => d.userID
  | none => 0

/-- One `storage.SaveMail(userID, from, to, subject, body, rawData)`
invocation. -/
structure SaveCall where
  userID : Int
  sfrom : Str
  sto : List Str
  subject : Str
  body : Str
  raw : Str
deriving DecidableEq, Repr

/-- `MailHandler.HandleMail` (src/main.go lines 35-67): resolve the
owner from the first recipient (0 when the list is empty or the lookup
misses), then persist; the handler's error is exactly SaveMail's.
`saveOk` stands for SaveMail succeeding on a given call. -/
def HandleMail (rows : List MailDomain) (saveOk : SaveCall → Bool) (m : MailMsg) :
    SaveCall × Bool :=
  let uid : Int :=
    match m.mto with
    | [] => 0
    | r0 :: _ => resolveOwner rows r0
  let c : SaveCall := ⟨uid, m.mfrom, m.mto, m.subject, m.body, m.raw⟩
  (c, saveOk c)

/-- The handler-success function the SMTP server is wired to in `main`. -/
def hokOf (rows : List MailDomain) (saveOk : SaveCall → Bool) : MailMsg → Bool :=
  fun m => (HandleMail rows saveOk m).2

/-- The SaveMail trace of a session: `HandleMail` performs exactly one
SaveMail per invocation. -/
def saveTrace (rows : List MailDomain) (saveOk : SaveCall → Bool)
    (calls : List MailMsg) : List SaveCall :=
  calls.map (fun m => (HandleMail rows saveOk m).1)

/-! ## Subdomain generation and provisioning (src/unnamed/part_004) -/

/-- The generation alphabet of `DNSPodService.GenerateSubdomain`. -/
def charsetL : Str := "abcdefghijklmnopqrstuvwxyz0123456789".data

/-- One candidate subdomain: attempt `a` consumes random draws
`8a .. 8a+7` from the stream modelling `rand.Int(rand.Reader, 36)`. -/
def genCandidate (rng : Nat → Fin 36) (a : Nat) : Str :=
  (List.range 8).map (fun i => charsetL.getD (rng (8 * a + i)).val 'a')

/-- The attempt loop of `GenerateSubdomain`: `reg` is the key set of the
in-memory `subdomainMap`, `fuel` the remaining attempts. -/
def genLoop (reg : List Str) (rng : Nat → Fin 36) : Nat → Nat → Except Unit Str
  | _, 0 => .error ()
  | a, fuel + 1 =>
    let cand := genCandidate rng a
    if decide (cand ∈ reg) then genLoop reg rng (a + 1) fuel else .ok cand

/-- `DNSPodService.GenerateSubdomain` (src/unnamed/part_004 lines
104-131): up to 100 attempts. -/
def GenerateSubdomain (reg : List Str) (rng : Nat → Fin 36) : Except Unit Str :=
  genLoop reg rng 0 100

/-- Observable external calls of `MailDNSService.CreateMailDomain`:
a DNS-provider CreateRecord, a DNS-provider DeleteRecord, or an
invocation of the compensation routine `deleteMailRecords`. -/
inductive SvcEvent
  | provCreate (sub : Str)
  | provDelete (sub : Str)
  | compDelete (sub : Str)
deriving DecidableEq, Repr

/-- `MailDNSService.deleteMailRecords` (src/unnamed/part_004 lines
456-460): a stub — it logs the attempt and returns nil without issuing
any DNS-provider call; `compDelete` records the invocation. -/
def deleteMailRecords (sub : Str) : List SvcEvent := [SvcEvent.compDelete sub]

instance {ε α : Type} [DecidableEq ε] [DecidableEq α] : DecidableEq (Except ε α)
  | .error e, .error f =>
    if h : e = f then .isTrue (h ▸ rfl) else .isFalse (fun hh => h (by injection hh))
  | .ok x, .ok y =>
    if h : x = y then .isTrue (h ▸ rfl) else .isFalse (fun hh => h (by injection hh))
  | .error _, .ok _ => .isFalse (fun hh => by injection hh)
  | .ok _, .error _ => .isFalse (fun hh => by injection hh)

/-- The distinct failure outcomes of `CreateMailDomain`. -/
inductive CreateErr
  | genFailed
  | dnsFailed
  | saveFailed
deriving DecidableEq, Repr

/-- Result of one `CreateMailDomain` call: the store rows after the
call, the external-call trace, and the returned value or error. -/
structure CreateOut where
  rows : List MailDomain
  events : List SvcEvent
  result : Except CreateErr MailDomain
deriving DecidableEq, Repr

/-- Go `strings.Split` on a one-character separator. -/
def splitOnChar (c : Char) : Str → List Str
  | [] => [[]]
  | x :: xs =>
    match splitOnChar c xs with
    | [] => [[]]
    | h :: t => if x = c then [] :: h :: t else (x :: h) :: t

/-- `MailDNSService.CreateMailDomain` (src/unnamed/part_004 lines
362-421).  `apex` is `dnsService.domain`, `dnsAvail` whether
`m.dnsService` is non-nil, `reg`/`rng` feed `GenerateSubdomain`, `mxOk`
whether the provider accepts the MX CreateRecord call, `saveOk` whether
the `mail_domains` INSERT succeeds, `now` the insertion timestamp. -/
def CreateMailDomain (apex : Str) (dnsAvail : Bool) (reg : List Str)
    (rng : Nat → Fin 36) (mxOk : Bool) (saveOk : Bool) (now : Nat)
    (rows : List MailDomain) (userID : Int) (email : Str) : CreateOut :=
  match getMailDomainByEmail rows email with
  | some existing => ⟨rows, [], .ok existing⟩
  | none =>
    if dnsAvail then
      match GenerateSubdomain reg rng with
      | .error _ => ⟨rows, [], .error .genFailed⟩
      | .ok sub =>
        if mxOk then
          let full := sub ++ '.' :: apex
          if saveOk then
            let row : MailDomain := ⟨(rows.length : Int) + 1, userID, sub, full, sub, email, now⟩
            ⟨rows ++ [row], [.provCreate sub], .ok ⟨0, 0, sub, full, sub, email, 0⟩⟩
          else
            ⟨rows, .provCreate sub :: deleteMailRecords sub, .error .saveFailed⟩
        else ⟨rows, [.provCreate sub], .error .dnsFailed⟩
    else
      let parts := splitOnChar '@' email
      let sub := if parts.length = 2 then parts.headI else "user".data ++ (toString userID).data
      let full := sub ++ ".mail.example.com".data
      if saveOk then
        let row : MailDomain := ⟨(rows.length : Int) + 1, userID, sub, full, sub, email, now⟩
        ⟨rows ++ [row], [], .ok ⟨0, 0, sub, full, sub, email, 0⟩⟩
      else ⟨rows, [], .error .saveFailed⟩

/-! ## Outbound relay (src/unnamed/part_007, package smtp) -/

/-- Go `strings.ToLower` on ASCII input. -/
def toLowerL (l : Str) : Str := l.map Char.toLower

/-- Go `strings.Contains`. -/
def containsSub (s t : Str) : Bool :=
  (List.range (s.length + 1)).any (fun i => decide (t <+: s.drop i))

/-- `MailForwarder.extractDomain`: the lower-cased part after a single
`@`, empty when the address is malformed. -/
def extractDomain (email : Str) : Str :=
  let parts := splitOnChar '@' email
  if parts.length = 2 then toLowerL (parts.getD 1 []) else []

/-- `MailForwarder.isLocalDomain`. -/
def isLocalDomain (localDomain email : Str) : Bool :=
  let parts := splitOnChar '@' email
  if parts.length = 2 then decide (toLowerL (parts.getD 1 []) = toLowerL localDomain)
  else false

/-- `providerPorts["default"]`. -/
def defaultPorts : List Nat := [25, 587, 465, 2525]

/-- The static `providerPorts` table.  Go iterates the map in an
unspecified order, so the functions below take the iteration order as a
parameter; this value is one such order. -/
def providerPortsTable : List (Str × List Nat) :=
  [("qq.com".data, [25, 587, 465]), ("foxmail.com".data, [25, 587, 465]),
   ("163.com".data, [25, 587, 465]), ("126.com".data, [25, 587, 465]),
   ("sina.com".data, [25, 587, 465]), ("sohu.com".data, [25, 587]),
   ("gmail.com".data, [587, 465]), ("outlook.com".data, [587, 25]),
   ("live.com".data, [587, 25]), ("hotmail.com".data, [587, 25]),
   ("yahoo.com".data, [587, 465]), ("icloud.com".data, [587, 25]),
   ("mail.ru".data, [25, 587, 465]), ("yandex.com".data, [25, 587, 465]),
   ("default".data, [25, 587, 465, 2525])]

/-- `MailForwarder.getPortsForDomain`: the first table entry (in the
given iteration order) whose key occurs in the lower-cased domain, else
the default list. -/
def getPortsForDomain (order : List (Str × List Nat)) (domain : Str) : List Nat :=
  match order.find? (fun kv => containsSub (toLowerL domain) kv.1) with
  | some kv => kv.2
  | none => defaultPorts

/-- `MailForwarder.findAvailablePorts` (src/unnamed/part_007 lines
345-361), the 2-second connect probe abstracted to `probe`: the ports
passing the probe, or `[25]` when none does. -/
def findAvailablePorts (probe : Str → Nat → Bool) (host : Str) (ports : List Nat) :
    List Nat :=
  let avail := ports.filter (probe host)
  if avail = [] then [25] else avail

/-- Outcome of the handshake on one (host, port) after a successful
HELO.  The opportunistic STARTTLS on port 587 never changes control
flow (its failure is tolerated), so it needs no case. -/
inductive PostOutcome
  | mailFail (e : Str)
  | rcptFail (e : Str)
  | dataFail (e : Str)
  | writeFail (e : Str)
  | sentOk
deriving DecidableEq, Repr

/-- Outcome of one delivery attempt, split at the failure points of
`sendToServerDirect` that occur before HELO completes. -/
inductive NetOutcome
  | dialFail (e : Str)
  | clientFail (e : Str)
  | helloFail (e : Str)
  | postHello (o : PostOutcome)
deriving DecidableEq, Repr

/-- The `fmt.Errorf` wrapping applied to each failure before it is
stored in `lastErr`. -/
def wrapAttempt : NetOutcome → Str
  | .dialFail e => "连接失败: ".data ++ e
  | .clientFail e => "创建SMTP客户端失败: ".data ++ e
  | .helloFail e => "HELO失败: ".data ++ e
  | .postHello (.mailFail e) => "MAIL FROM失败: ".data ++ e
  | .postHello (.rcptFail e) => "RCPT TO失败: ".data ++ e
  | .postHello (.dataFail e) => "DATA失败: ".data ++ e
  | .postHello (.writeFail e) => "发送数据失败: ".data ++ e
  | .postHello .sentOk => []

/-- The port loop of `sendToServerDirect`: `lastErr` threads Go's
`lastErr`; port 465 is skipped after HELO without touching `lastErr`;
`none` is Go's nil error. -/
def tryPorts (net : Nat → NetOutcome) (lastErr : Option Str) : List Nat → Option Str
  | [] => lastErr
  | p :: rest =>
    match net p with
    | .dialFail e => tryPorts net (some (wrapAttempt (.dialFail e))) rest
    | .clientFail e => tryPorts net (some (wrapAttempt (.clientFail e))) rest
    | .helloFail e => tryPorts net (some (wrapAttempt (.helloFail e))) rest
    | .postHello o =>
      if p = 465 then tryPorts net lastErr rest
      else
        match o with
        | .sentOk => none
        | o => tryPorts net (some (wrapAttempt (.postHello o))) rest

/-- `MailForwarder.sendToServerDirect` (src/unnamed/part_007 lines
412-514): provider-recommended ports for the recipient's domain, the
availability probe, then the attempt loop.  `net` is the per-(host,
port) handshake oracle; the sender and raw bytes only feed the
oracle-modelled wire calls and are omitted. -/
def sendToServerDirect (net : Str → Nat → NetOutcome) (probe : Str → Nat → Bool)
    (order : List (Str × List Nat)) (host tto : Str) : Option Str :=
  let domain := extractDomain tto
  let recommended := getPortsForDomain order domain
  let avail := findAvailablePorts probe host recommended
  tryPorts (net host) none avail

/-- The MX loop of `sendDirect`: try each resolved host; when all fail,
return the generic all-MX-servers error (discarding each host's own
last error). -/
def mxLoop (net : Str → Nat → NetOutcome) (probe : Str → Nat → Bool)
    (order : List (Str × List Nat)) (tto domain : Str) :
    List (Str × Nat) → Option Str
  | [] => some ("failed to forward to all MX servers for domain: ".data ++ domain)
  | (h, _) :: rest =>
    match sendToServerDirect net probe order (tsuf h ".".data) tto with
    | none => none
    | some _ => mxLoop net probe order tto domain rest

/-- `MailForwarder.sendDirect` (src/unnamed/part_007 lines 375-409):
`mx` is the `net.LookupMX` result for the recipient's domain (already
preference-sorted by the resolver). -/
def sendDirect (net : Str → Nat → NetOutcome) (probe : Str → Nat → Bool)
    (order : List (Str × List Nat)) (mx : Except Str (List (Str × Nat)))
    (tto : Str) : Option Str :=
  let domain := extractDomain tto
  if domain = [] then some ("invalid email address: ".data ++ tto)
  else
    match mx with
    | .error _ => sendToServerDirect net probe order domain tto
    | .ok recs =>
      if recs = [] then some ("no MX records found for domain: ".data ++ domain)
      else mxLoop net probe order tto domain recs

/-- `MailForwarder.Forward` (src/unnamed/part_007 lines 363-372). -/
def Forward (net : Str → Nat → NetOutcome) (probe : Str → Nat → Bool)
    (order : List (Str × List Nat)) (mx : Except Str (List (Str × Nat)))
    (localDomain tto : Str) : Option Str :=
  if isLocalDomain localDomain tto then
    some ("cannot forward to local domain: ".data ++ tto)
  else sendDirect net probe order mx tto

/-! ## Auxiliary definitions for the theorems -/

/-- An address in angle brackets, as it appears after `FROM:`/`TO:`. -/
def angleWrap (s : Str) : Str := '<' :: (s ++ ['>'])

/-- A `MAIL FROM:<s>` read. -/
def mkMailChunk (s : Str) : Str := "MAIL FROM:<".data ++ (s ++ ['>'])

/-- A `RCPT TO:<r>` read. -/
def mkRcptChunk (r : Str) : Str := "RCPT TO:<".data ++ (r ++ ['>'])

/-- A fixed HELO read. -/
def heloChunk : Str := "HELO client.test".data

/-- The DATA read. -/
def dataChunk : Str := "DATA".data

/-- What the session does once the accumulated data terminates:
`processMailData` on the stripped data, then `reset`, then back to the
command loop on the remaining reads. -/
def finishData (parse : Str → Option (Str × Str)) (hok : MailMsg → Bool) (dom : Str)
    (st : SessState) (rest : List Str) (data : Str) : RunOut :=
  match parse data with
  | none => addReply reply550Parse (runSess parse hok dom initSess none rest)
  | some sb =>
    let m : MailMsg := ⟨st.mailFrom, st.rcptTo, sb.1, sb.2, data⟩
    addReply (if hok m then reply250Accept else reply550Handle)
      (addCall m (runSess parse hok dom initSess none rest))

/-- Parser stub rejecting every message. -/
def parseNone : Str → Option (Str × Str) := fun _ => none

/-- A constant random stream for concrete provisioning runs. -/
def rng0 : Nat → Fin 36 := fun _ => ⟨0, by decide⟩

/-- Whether one attempt outcome updates `lastErr` (it neither succeeded
nor took the port-465 skip). -/
def attemptFails (o : NetOutcome) (p : Nat) : Bool :=
  match o with
  | .dialFail _ => true
  | .clientFail _ => true
  | .helloFail _ => true
  | .postHello po =>
    if p = 465 then false
    else
      match po with
      | .sentOk => false
      | _ => true

/-- Prepend several replies to a run outcome. -/
def addReplies (rs : List Str) (o : RunOut) : RunOut := { o with replies := rs ++ o.replies }

/-! ## Helper lemmas: strings and single session steps -/

theorem splitN2_mailVerb (x : Str) :
    splitN2 ('M' :: 'A' :: 'I' :: 'L' :: ' ' :: x) = ("MAIL".data, x) := rfl

theorem splitN2_rcptVerb (x : Str) :
    splitN2 ('R' :: 'C' :: 'P' :: 'T' :: ' ' :: x) = ("RCPT".data, x) := rfl

theorem trimSpace_ends {c d : Char} (m : Str) (hc : isSpaceGo c = false)
    (hd : isSpaceGo d = false) :
    trimSpace ((c :: m) ++ [d]) = (c :: m) ++ [d] := by
  simp [trimSpace, dropTrail, List.dropWhile_cons, hc, hd, List.reverse_append]

theorem processCommand_mail (dom : Str) (st : SessState) (s : Str) :
    processCommand dom st (mkMailChunk s)
      = ⟨{ st with mailFrom := extractEmail (angleWrap s) }, reply250OK, .go⟩ := rfl

theorem processCommand_rcpt (dom : Str) (st : SessState) (r : Str) :
    processCommand dom st (mkRcptChunk r)
      = ⟨{ st with rcptTo := st.rcptTo ++ [extractEmail (angleWrap r)] },
         reply250OK, .go⟩ := rfl

theorem processCommand_helo (dom : Str) (st : SessState) :
    processCommand dom st heloChunk = ⟨st, reply250Hello dom, .go⟩ := rfl

theorem processCommand_data (dom : Str) (st : SessState) :
    processCommand dom st dataChunk = ⟨st, reply354, .dataMode⟩ := rfl

theorem runSess_nil_cmd (parse : Str → Option (Str × Str)) (hok : MailMsg → Bool)
    (dom : Str) (st : SessState) :
    runSess parse hok dom st none [] = ⟨[], [], st⟩ := rfl

theorem runSess_nil_recv (parse : Str → Option (Str × Str)) (hok : MailMsg → Bool)
    (dom : Str) (st : SessState) (buf : Str) :
    runSess parse hok dom st (some buf) [] = ⟨[], [], st⟩ := rfl

theorem runSess_go (parse : Str → Option (Str × Str)) (hok : MailMsg → Bool)
    (dom : Str) (st st' : SessState) (rep chunk : Str) (rest : List Str)
    (hne : trimSpace chunk ≠ [])
    (hp : processCommand dom st (trimSpace chunk) = ⟨st', rep, .go⟩) :
    runSess parse hok dom st none (chunk :: rest)
      = addReply rep (runSess parse hok dom st' none rest) := by
  simp only [runSess, if_neg hne, hp]

theorem runSess_dataMode (parse : Str → Option (Str × Str)) (hok : MailMsg → Bool)
    (dom : Str) (st st' : SessState) (rep chunk : Str) (rest : List Str)
    (hne : trimSpace chunk ≠ [])
    (hp : processCommand dom st (trimSpace chunk) = ⟨st', rep, .dataMode⟩) :
    runSess parse hok dom st none (chunk :: rest)
      = addReply rep (runSess parse hok dom st' (some []) rest) := by
  simp only [runSess, if_neg hne, hp]

theorem runSess_recv_more (parse : Str → Option (Str × Str)) (hok : MailMsg → Bool)
    (dom : Str) (st : SessState) (buf chunk : Str) (rest : List Str)
    (h : isTerm (buf ++ chunk) = false) :
    runSess parse hok dom st (some buf) (chunk :: rest)
      = runSess parse hok dom st (some (buf ++ chunk)) rest := by
  simp only [runSess, h]
  rfl

theorem runSess_recv_done (parse : Str → Option (Str × Str)) (hok : MailMsg → Bool)
    (dom : Str) (st : SessState) (buf chunk : Str) (rest : List Str)
    (h : isTerm (buf ++ chunk) = true) :
    runSess parse hok dom st (some buf) (chunk :: rest)
      = finishData parse hok dom st rest (stripTerm (buf ++ chunk)) := by
  simp only [runSess, h, finishData]
  rfl

theorem trimSpace_mail (s : Str) : trimSpace (mkMailChunk s) = mkMailChunk s :=
  trimSpace_ends ("AIL FROM:<".data ++ s) rfl rfl

theorem trimSpace_rcpt (r : Str) : trimSpace (mkRcptChunk r) = mkRcptChunk r :=
  trimSpace_ends ("CPT TO:<".data ++ r) rfl rfl

theorem trimSpace_mail_ne (s : Str) : trimSpace (mkMailChunk s) ≠ [] := by
  rw [trimSpace_mail]
  exact List.cons_ne_nil _ _

theorem trimSpace_rcpt_ne (r : Str) : trimSpace (mkRcptChunk r) ≠ [] := by
  rw [trimSpace_rcpt]
  exact List.cons_ne_nil _ _

theorem addReply_addReplies (x : Str) (xs : List Str) (o : RunOut) :
    addReply x (addReplies xs o) = addReplies (x :: xs) o := rfl

theorem addReplies_nil (o : RunOut) : addReplies [] o = o := rfl

/-- Processing a block of `RCPT TO` reads: one 250 reply per read, each
address appended in order; sender unchanged. -/
theorem runSess_rcptSeq (parse : Str → Option (Str × Str)) (hok : MailMsg → Bool)
    (dom : Str) (rs : List Str) :
    ∀ (st : SessState) (rest : List Str),
      runSess parse hok dom st none (List.map mkRcptChunk rs ++ rest)
        = addReplies (rs.map fun _ => reply250OK)
            (runSess parse hok dom
              ⟨st.mailFrom, st.rcptTo ++ rs.map (fun r => extractEmail (angleWrap r))⟩
              none rest) := by
  induction rs with
  | nil =>
    intro st rest
    simp [addReplies_nil]
  | cons r rs ih =>
    intro st rest
    rw [List.map_cons, List.cons_append,
      runSess_go parse hok dom st _ _ _ _ (trimSpace_rcpt_ne r)
        (by rw [trimSpace_rcpt]; exact processCommand_rcpt dom st r),
      ih, addReply_addReplies]
    simp [List.append_assoc]

/-- Consuming a block of data reads: while no accumulation point ends in
a terminator the buffer only grows; the read that first makes it end in
one triggers `processMailData` on the stripped accumulated buffer. -/
theorem runSess_recv_run (parse : Str → Option (Str × Str)) (hok : MailMsg → Bool)
    (dom : Str) (rest : List Str) :
    ∀ (rds : List Str) (st : SessState) (buf : Str),
      rds ≠ [] →
      (∀ j, j + 1 < rds.length → isTerm (buf ++ (rds.take (j + 1)).flatten) = false) →
      isTerm (buf ++ rds.flatten) = true →
      runSess parse hok dom st (some buf) (rds ++ rest)
        = finishData parse hok dom st rest (stripTerm (buf ++ rds.flatten)) := by
  intro rds
  induction rds with
  | nil => intro st buf hne _ _; exact absurd rfl hne
  | cons r rds ih =>
    intro st buf _ hj hterm
    cases rds with
    | nil =>
      have h1 : isTerm (buf ++ r) = true := by simpa using hterm
      rw [List.cons_append, List.nil_append, runSess_recv_done parse hok dom st buf r rest h1]
      simp
    | cons r2 t =>
      have h0 : isTerm (buf ++ r) = false := by
        have := hj 0 (by simp)
        simpa using this
      rw [List.cons_append, runSess_recv_more parse hok dom st buf r _ h0,
        ih st (buf ++ r) (List.cons_ne_nil _ _)
          (fun j hlt => by
            have := hj (j + 1) (by simpa using Nat.succ_lt_succ hlt)
            simpa [List.append_assoc] using this)
          (by simpa [List.append_assoc] using hterm)]
      simp [List.append_assoc]

/-! ## Claim C2 -/

/-- C2 counterexample: issuing `RCPT TO:<a@b.c>` as the very first
command — before any MAIL FROM — is answered `250 OK` (not a 501
syntax/sequence error) and the address is appended to the session's
recipient list, which is therefore mutated. -/
theorem rcpt_before_mail_not_rejected_cx :
    runServer parseAll hokTrue dom0 ["RCPT TO:<a@b.c>".data]
        = ⟨[reply220 dom0, reply250OK], [], ⟨[], ["a@b.c".data]⟩⟩
      ∧ (runServer parseAll hokTrue dom0 ["RCPT TO:<a@b.c>".data]).final.rcptTo ≠ []
      ∧ reply250OK ≠ reply501 := by
  refine ⟨by decide, by decide, by decide⟩

/-- C2 (amended): `processCommand` performs no sequence checking, so a
`RCPT TO:<a>` issued before any MAIL FROM is accepted with `250 OK` and
appends the extracted address to the (previously empty) recipient
list. -/
theorem rcpt_before_mail_is_accepted (parse : Str → Option (Str × Str))
    (hok : MailMsg → Bool) (dom a : Str) (rest : List Str) :
    runServer parse hok dom (mkRcptChunk a :: rest)
      = addReply (reply220 dom) (addReply reply250OK
          (runSess parse hok dom ⟨[], [extractEmail (angleWrap a)]⟩ none rest)) := by
  unfold runServer
  rw [runSess_go parse hok dom initSess _ _ _ _ (trimSpace_rcpt_ne a)
    (by rw [trimSpace_rcpt]; exact processCommand_rcpt dom initSess a)]
  rfl

/-! ## Claim C9 -/

/-- C9: outside DATA the engine treats each transport read as exactly
one command: (i) the whole trimmed read buffer is processed by one
`processCommand` call producing one reply; (ii) a command split across
two reads ("DA" then "TA") is processed as two distinct commands (two
500 replies, never the 354 of a DATA); (iii) two commands arriving in
one read are processed as a single command whose extracted argument
contains the embedded line break. -/
theorem one_read_one_command :
    (∀ (parse : Str → Option (Str × Str)) (hok : MailMsg → Bool) (dom : Str)
        (st st' : SessState) (rep chunk : Str) (rest : List Str),
        trimSpace chunk ≠ [] →
        processCommand dom st (trimSpace chunk) = ⟨st', rep, CmdAction.go⟩ →
        runSess parse hok dom st none (chunk :: rest)
          = addReply rep (runSess parse hok dom st' none rest))
    ∧ runServer parseAll hokTrue dom0 ["DA".data, "TA".data]
        = ⟨[reply220 dom0, reply500, reply500], [], initSess⟩
    ∧ runServer parseAll hokTrue dom0 ["RCPT TO:<a@x>\r\nRCPT TO:<b@y>".data]
        = ⟨[reply220 dom0, reply250OK], [], ⟨[], ["a@x>\r\nRCPT TO:<b@y".data]⟩⟩
      ∧ '\n' ∈ "a@x>\r\nRCPT TO:<b@y".data := by
  refine ⟨fun parse hok dom st st' rep chunk rest hne hp =>
    runSess_go parse hok dom st st' rep chunk rest hne hp, by decide, by decide, by decide⟩

/-- Witness for C9: the NOOP command processed as one read. -/
theorem one_read_one_command_witness :
    runSess parseAll hokTrue dom0 initSess none ["NOOP".data]
      = addReply reply250OK (runSess parseAll hokTrue dom0 initSess none []) :=
  one_read_one_command.1 parseAll hokTrue dom0 initSess initSess reply250OK
    "NOOP".data [] (by decide) (by decide)

/-! ## Claim C10 -/

/-- C10: when every candidate port of a host fails the probe,
`findAvailablePorts` returns `[25]`, never the empty list, so
`sendToServerDirect` still makes a full delivery attempt on port 25 of
that host. -/
theorem find_available_ports_fallback_25 :
    ∀ (net : Str → Nat → NetOutcome) (probe : Str → Nat → Bool)
      (order : List (Str × List Nat)) (host tto : Str) (ports : List Nat),
      ((∀ p ∈ ports, probe host p = false) →
          findAvailablePorts probe host ports = [25])
      ∧ findAvailablePorts probe host ports ≠ []
      ∧ ((∀ p ∈ getPortsForDomain order (extractDomain tto), probe host p = false) →
          sendToServerDirect net probe order host tto = tryPorts (net host) none [25]) := by
  have hfa : ∀ (probe : Str → Nat → Bool) (host : Str) (ports : List Nat),
      (∀ p ∈ ports, probe host p = false) → findAvailablePorts probe host ports = [25] := by
    intro probe host ports h
    have hnil : ports.filter (probe host) = [] := by
      rw [List.filter_eq_nil_iff]
      intro p hp
      simp [h p hp]
    simp [findAvailablePorts, hnil]
  refine fun net probe order host tto ports => ⟨hfa probe host ports, ?_, ?_⟩
  · by_cases hc : ports.filter (probe host) = [] <;> simp [findAvailablePorts, hc]
  · intro h
    simp only [sendToServerDirect, hfa probe host _ h]

/-- Witness for C10: all probes failing on a concrete host. -/
theorem find_available_ports_fallback_25_witness :
    findAvailablePorts (fun _ _ => false) "h.ex".data [587, 465] = [25]
      ∧ sendToServerDirect (fun _ _ => NetOutcome.dialFail "e".data) (fun _ _ => false)
          providerPortsTable "h.ex".data "u@ex.com".data
        = tryPorts ((fun _ _ => NetOutcome.dialFail "e".data) "h.ex".data) none [25] :=
  ⟨(find_available_ports_fallback_25 (fun _ _ => .dialFail "e".data) (fun _ _ => false)
      providerPortsTable "h.ex".data "u@ex.com".data [587, 465]).1 (by decide),
   (find_available_ports_fallback_25 (fun _ _ => .dialFail "e".data) (fun _ _ => false)
      providerPortsTable "h.ex".data "u@ex.com".data [587, 465]).2.2 (by decide)⟩

/-! ## Claim C7 -/

theorem genCandidate_length (rng : Nat → Fin 36) (a : Nat) :
    (genCandidate rng a).length = 8 := by
  simp [genCandidate]

theorem genCandidate_chars (rng : Nat → Fin 36) (a : Nat) :
    ∀ c ∈ genCandidate rng a, c ∈ charsetL := by
  intro c hc
  simp only [genCandidate, List.mem_map] at hc
  obtain ⟨i, _, rfl⟩ := hc
  have hlen : charsetL.length = 36 := by decide
  have hlt : (rng (8 * a + i)).val < charsetL.length := by
    rw [hlen]
    exact (rng (8 * a + i)).isLt
  rw [List.getD_eq_getElem?_getD, List.getElem?_eq_getElem hlt, Option.getD_some]
  exact List.getElem_mem hlt

theorem genLoop_ok_fresh (reg : List Str) (rng : Nat → Fin 36) :
    ∀ (fuel a : Nat) (s : Str), genLoop reg rng a fuel = .ok s →
      (∃ k, s = genCandidate rng k) ∧ s ∉ reg := by
  intro fuel
  induction fuel with
  | zero => intro a s h; exact absurd h (by simp [genLoop])
  | succ fuel ih =>
    intro a s h
    by_cases hmem : genCandidate rng a ∈ reg
    · exact ih (a + 1) s (by simpa [genLoop, hmem] using h)
    · have hs : genCandidate rng a = s := by simpa [genLoop, hmem] using h
      exact ⟨⟨a, hs.symm⟩, hs ▸ hmem⟩

theorem genLoop_exhausted (reg : List Str) (rng : Nat → Fin 36) :
    ∀ (fuel a : Nat), (∀ k, k < fuel → genCandidate rng (a + k) ∈ reg) →
      genLoop reg rng a fuel = .error () := by
  intro fuel
  induction fuel with
  | zero => intro a _; rfl
  | succ fuel ih =>
    intro a h
    have h0 : genCandidate rng a ∈ reg := by
      have := h 0 (Nat.succ_pos fuel)
      simpa using this
    have hrest : ∀ k, k < fuel → genCandidate rng (a + 1 + k) ∈ reg := by
      intro k hk
      have := h (k + 1) (Nat.succ_lt_succ hk)
      simpa [Nat.add_assoc, Nat.add_comm 1 k] using this
    simp [genLoop, h0, ih (a + 1) hrest]

/-- C7: `GenerateSubdomain` only ever returns an 8-character string over
the lowercase alphanumeric alphabet that is absent from the in-memory
registry, and when all 100 attempts produce already-registered values it
returns the generation-exhausted error. -/
theorem generate_subdomain_fresh_or_exhausted :
    ∀ (reg : List Str) (rng : Nat → Fin 36),
      (∀ s, GenerateSubdomain reg rng = .ok s →
          s.length = 8 ∧ s ∉ reg ∧ ∀ c ∈ s, c ∈ charsetL)
      ∧ ((∀ a, a < 100 → genCandidate rng a ∈ reg) →
          GenerateSubdomain reg rng = .error ()) := by
  refine fun reg rng => ⟨fun s h => ?_, fun h => ?_⟩
  · obtain ⟨⟨k, rfl⟩, hfresh⟩ := genLoop_ok_fresh reg rng 100 0 s h
    exact ⟨genCandidate_length rng k, hfresh, genCandidate_chars rng k⟩
  · exact genLoop_exhausted reg rng 100 0 (fun k hk => by simpa using h k hk)

/-- Witness for C7: a fresh registry yields `aaaaaaaa`; a registry
already holding every candidate of the constant stream exhausts. -/
theorem generate_subdomain_witness :
    ("aaaaaaaa".data.length = 8 ∧ "aaaaaaaa".data ∉ ([] : List Str)
        ∧ ∀ c ∈ "aaaaaaaa".data, c ∈ charsetL)
      ∧ GenerateSubdomain ["aaaaaaaa".data] rng0 = .error () :=
  ⟨(generate_subdomain_fresh_or_exhausted [] rng0).1 "aaaaaaaa".data (by decide),
   (generate_subdomain_fresh_or_exhausted ["aaaaaaaa".data] rng0).2 (by decide)⟩

/-! ## Claim C6 -/

/-- C6: for a message with a non-empty recipient list the inbound
handler resolves the owner from the first recipient only, uses the
sentinel owner 0 when no row matches that address, still issues the
SaveMail call with that owner, and its error is exactly SaveMail's. -/
theorem handler_first_recipient_owner :
    ∀ (rows : List MailDomain) (saveOk : SaveCall → Bool) (m : MailMsg)
      (r0 : Str) (rtl : List Str),
      m.mto = r0 :: rtl →
      HandleMail rows saveOk m
          = (⟨resolveOwner rows r0, m.mfrom, m.mto, m.subject, m.body, m.raw⟩,
             saveOk ⟨resolveOwner rows r0, m.mfrom, m.mto, m.subject, m.body, m.raw⟩)
        ∧ (getMailDomainByEmail rows r0 = none → resolveOwner rows r0 = 0) := by
  intro rows saveOk m r0 rtl hmto
  constructor
  · simp [HandleMail, hmto]
  · intro hnone
    simp [resolveOwner, hnone]

/-- Witness for C6: a one-recipient message against an empty store is
saved with owner 0 and the handler reports success. -/
theorem handler_first_recipient_owner_witness :
    HandleMail [] (fun _ => true) ⟨"s@e.x".data, ["r@e.x".data], [], [], []⟩
        = (⟨0, "s@e.x".data, ["r@e.x".data], [], [], []⟩, true)
      ∧ resolveOwner [] "r@e.x".data = 0 := by
  have h := handler_first_recipient_owner [] (fun _ => true)
    ⟨"s@e.x".data, ["r@e.x".data], [], [], []⟩ "r@e.x".data [] rfl
  exact ⟨h.1.trans (by decide), h.2 (by decide)⟩

/-! ## Claim C4 -/

/-- C4: when the provider CreateRecord succeeded and persistence then
fails, `CreateMailDomain` invokes the compensation routine
`deleteMailRecords` exactly once — but that routine is a stub, so the
event trace holds no DNS-provider DeleteRecord call — and the
persistence failure is returned with the store unchanged. -/
theorem compensation_calls_stub_once :
    ∀ (apex : Str) (reg : List Str) (rng : Nat → Fin 36) (now : Nat)
      (rows : List MailDomain) (userID : Int) (email sub : Str),
      getMailDomainByEmail rows email = none →
      GenerateSubdomain reg rng = .ok sub →
      CreateMailDomain apex true reg rng true false now rows userID email
          = ⟨rows, [SvcEvent.provCreate sub, SvcEvent.compDelete sub], .error .saveFailed⟩
        ∧ ([SvcEvent.provCreate sub, SvcEvent.compDelete sub].filter
            (fun e => match e with | SvcEvent.provDelete _ => true | _ => false)) = [] := by
  intro apex reg rng now rows userID email sub hnone hgen
  constructor
  · simp [CreateMailDomain, hnone, hgen, deleteMailRecords]
  · simp [List.filter]

/-- Witness for C4, at the failing input itself: fresh store, generated
subdomain `aaaaaaaa`, provider create succeeds, INSERT fails. -/
theorem compensation_calls_stub_once_witness :
    CreateMailDomain "ex.com".data true [] rng0 true false 5 [] 7 "a@b".data
        = ⟨[], [SvcEvent.provCreate "aaaaaaaa".data, SvcEvent.compDelete "aaaaaaaa".data],
           .error .saveFailed⟩
      ∧ ([SvcEvent.provCreate "aaaaaaaa".data, SvcEvent.compDelete "aaaaaaaa".data].filter
          (fun e => match e with | SvcEvent.provDelete _ => true | _ => false)) = [] :=
  compensation_calls_stub_once "ex.com".data [] rng0 5 [] 7 "a@b".data "aaaaaaaa".data
    (by decide) (by decide)

/-! ## Claim C5 -/

theorem getMailDomainByEmail_append_row (rows : List MailDomain) (row : MailDomain)
    (email : Str) (h : getMailDomainByEmail rows email = none)
    (hrow : row.email = email) :
    getMailDomainByEmail (rows ++ [row]) email = some row := by
  induction rows with
  | nil => simp [getMailDomainByEmail, List.find?, hrow]
  | cons r rs ih =>
    simp only [getMailDomainByEmail, List.cons_append, List.find?] at h ⊢
    cases hd : decide (r.email = email) with
    | true => rw [hd] at h; exact absurd h (by simp)
    | false =>
      rw [hd] at h
      exact ih h

/-- C5 counterexample: the two create calls do NOT return the same
MailboxIdentity value.  The first call returns a literal with row id 0,
owner id 0 and zero creation time; the second call returns the persisted
row (id 1, owner 7, the insertion time), so the values differ even
though exactly one provider create happened. -/
theorem create_twice_different_values_cx :
    (CreateMailDomain "ex.com".data true [] rng0 true true 5 [] 7 "a@b".data).result
        = .ok ⟨0, 0, "aaaaaaaa".data, "aaaaaaaa.ex.com".data, "aaaaaaaa".data, "a@b".data, 0⟩
      ∧ (CreateMailDomain "ex.com".data true [] rng0 true true 6
            (CreateMailDomain "ex.com".data true [] rng0 true true 5 [] 7 "a@b".data).rows
            7 "a@b".data).result
          = .ok ⟨1, 7, "aaaaaaaa".data, "aaaaaaaa.ex.com".data, "aaaaaaaa".data, "a@b".data, 5⟩
      ∧ (⟨0, 0, "aaaaaaaa".data, "aaaaaaaa.ex.com".data, "aaaaaaaa".data, "a@b".data, 0⟩
            : MailDomain)
          ≠ ⟨1, 7, "aaaaaaaa".data, "aaaaaaaa.ex.com".data, "aaaaaaaa".data, "a@b".data, 5⟩ := by
  refine ⟨by decide, by decide, by decide⟩

/-- C5 (amended): both calls succeed and agree on the generated
subdomain, full domain, record id and address; the second call returns
the persisted row unchanged and performs no DNS-provider call, so
exactly one provider CreateRecord happens in total — but the first
call's return value carries zero row id, owner id and creation time, so
the two returned values are not field-for-field equal. -/
theorem create_twice_one_provider_create :
    ∀ (apex : Str) (reg : List Str) (rng : Nat → Fin 36) (now1 now2 : Nat)
      (rows : List MailDomain) (uid1 uid2 : Int) (email sub : Str),
      getMailDomainByEmail rows email = none →
      GenerateSubdomain reg rng = .ok sub →
      CreateMailDomain apex true reg rng true true now1 rows uid1 email
          = ⟨rows ++ [⟨(rows.length : Int) + 1, uid1, sub, sub ++ '.' :: apex, sub, email, now1⟩],
             [SvcEvent.provCreate sub],
             .ok ⟨0, 0, sub, sub ++ '.' :: apex, sub, email, 0⟩⟩
        ∧ CreateMailDomain apex true reg rng true true now2
              (rows ++ [⟨(rows.length : Int) + 1, uid1, sub, sub ++ '.' :: apex, sub, email, now1⟩])
              uid2 email
            = ⟨rows ++ [⟨(rows.length : Int) + 1, uid1, sub, sub ++ '.' :: apex, sub, email, now1⟩],
               [],
               .ok ⟨(rows.length : Int) + 1, uid1, sub, sub ++ '.' :: apex, sub, email, now1⟩⟩ := by
  intro apex reg rng now1 now2 rows uid1 uid2 email sub hnone hgen
  constructor
  · simp [CreateMailDomain, hnone, hgen]
  · have hsome := getMailDomainByEmail_append_row rows
      ⟨(rows.length : Int) + 1, uid1, sub, sub ++ '.' :: apex, sub, email, now1⟩ email hnone rfl
    simp [CreateMailDomain, hsome]

/-- Witness for C5's amended statement at a concrete input. -/
theorem create_twice_one_provider_create_witness :
    CreateMailDomain "ex.com".data true [] rng0 true true 5 [] 7 "a@b".data
        = ⟨[⟨1, 7, "aaaaaaaa".data, "aaaaaaaa.ex.com".data, "aaaaaaaa".data, "a@b".data, 5⟩],
           [SvcEvent.provCreate "aaaaaaaa".data],
           .ok ⟨0, 0, "aaaaaaaa".data, "aaaaaaaa.ex.com".data, "aaaaaaaa".data, "a@b".data, 0⟩⟩
      ∧ CreateMailDomain "ex.com".data true [] rng0 true true 6
            [⟨1, 7, "aaaaaaaa".data, "aaaaaaaa.ex.com".data, "aaaaaaaa".data, "a@b".data, 5⟩]
            7 "a@b".data
          = ⟨[⟨1, 7, "aaaaaaaa".data, "aaaaaaaa.ex.com".data, "aaaaaaaa".data, "a@b".data, 5⟩],
             [],
             .ok ⟨1, 7, "aaaaaaaa".data, "aaaaaaaa.ex.com".data, "aaaaaaaa".data, "a@b".data, 5⟩⟩ :=
  create_twice_one_provider_create "ex.com".data [] rng0 5 6 [] 7 7 "a@b".data "aaaaaaaa".data
    (by decide) (by decide)

/-! ## Claim C8 -/

theorem tryPorts_cons_fail (net : Nat → NetOutcome) (q : Nat) (rest : List Nat)
    (e0 : Option Str) (h : attemptFails (net q) q = true) :
    tryPorts net e0 (q :: rest) = tryPorts net (some (wrapAttempt (net q))) rest := by
  cases hnet : net q with
  | dialFail e => simp only [tryPorts, hnet]
  | clientFail e => simp only [tryPorts, hnet]
  | helloFail e => simp only [tryPorts, hnet]
  | postHello po =>
    rw [hnet] at h
    by_cases h465 : q = 465
    · exact absurd h (by simp [attemptFails, h465])
    · cases po with
      | sentOk => exact absurd h (by simp [attemptFails, h465])
      | mailFail e => simp only [tryPorts, hnet, if_neg h465]
      | rcptFail e => simp only [tryPorts, hnet, if_neg h465]
      | dataFail e => simp only [tryPorts, hnet, if_neg h465]
      | writeFail e => simp only [tryPorts, hnet, if_neg h465]

theorem tryPorts_all_fail (net : Nat → NetOutcome) :
    ∀ (ports : List Nat) (e0 : Option Str) (p : Nat),
      (∀ q ∈ ports, attemptFails (net q) q = true) →
      ports.getLast? = some p →
      tryPorts net e0 ports = some (wrapAttempt (net p)) := by
  intro ports
  induction ports with
  | nil => intro e0 p _ h; simp at h
  | cons q rest ih =>
    intro e0 p hfail hlast
    have hf := hfail q (by simp)
    rw [tryPorts_cons_fail net q rest e0 hf]
    cases rest with
    | nil =>
      have hp : q = p := by simpa using hlast
      subst hp
      rfl
    | cons r t =>
      have hlast2 : (r :: t).getLast? = some p := by
        rw [List.getLast?_cons_cons] at hlast
        exact hlast
      have hfail2 : ∀ x ∈ r :: t, attemptFails (net x) x = true :=
        fun x hx => hfail x (by simp [List.mem_cons] at hx ⊢; tauto)
      exact ih _ p hfail2 hlast2

theorem mxLoop_all_fail (net : Str → Nat → NetOutcome) (probe : Str → Nat → Bool)
    (order : List (Str × List Nat)) (tto domain : Str) :
    ∀ (recs : List (Str × Nat)),
      (∀ hp ∈ recs, sendToServerDirect net probe order (tsuf hp.1 ".".data) tto ≠ none) →
      mxLoop net probe order tto domain recs
        = some ("failed to forward to all MX servers for domain: ".data ++ domain) := by
  intro recs
  induction recs with
  | nil => intro _; rfl
  | cons hp rest ih =>
    intro h
    obtain ⟨h1, hpr⟩ := hp
    cases hs : sendToServerDirect net probe order (tsuf h1 ".".data) tto with
    | none => exact absurd hs (h (h1, hpr) (by simp))
    | some e =>
      simp only [mxLoop, hs]
      exact ih (fun x hx => h x (by simp [hx]))

/-- C8 counterexample: one MX host, every port failing; the most recent
per-attempt error is the wrapped dial failure, but `Forward` returns the
generic all-MX-servers message instead. -/
theorem forward_generic_error_cx :
    Forward (fun _ _ => .dialFail "boom".data) (fun _ _ => false) providerPortsTable
        (.ok [("mx1.ex.com.".data, 10)]) "mine.com".data "u@ex.com".data
        = some "failed to forward to all MX servers for domain: ex.com".data
      ∧ sendToServerDirect (fun _ _ => .dialFail "boom".data) (fun _ _ => false)
          providerPortsTable "mx1.ex.com".data "u@ex.com".data
        = some "连接失败: boom".data
      ∧ "failed to forward to all MX servers for domain: ex.com".data
        ≠ "连接失败: boom".data := by
  refine ⟨by decide, by decide, by decide⟩

/-- C8 (amended): (i) within one host the port loop returns the wrapped
error of the most recent attempt; (ii) when MX resolution failed,
`Forward` falls back to the domain as sole host and so propagates that
host's most recent per-attempt error; (iii) when MX records were found
and every host fails, `Forward` discards the per-attempt errors and
returns the generic all-MX-servers error. -/
theorem forward_error_reporting :
    (∀ (net : Nat → NetOutcome) (ports : List Nat) (e0 : Option Str) (p : Nat),
        (∀ q ∈ ports, attemptFails (net q) q = true) →
        ports.getLast? = some p →
        tryPorts net e0 ports = some (wrapAttempt (net p)))
    ∧ (∀ (net : Str → Nat → NetOutcome) (probe : Str → Nat → Bool)
        (order : List (Str × List Nat)) (mxErr localDomain tto : Str),
        isLocalDomain localDomain tto = false →
        extractDomain tto ≠ [] →
        Forward net probe order (.error mxErr) localDomain tto
          = sendToServerDirect net probe order (extractDomain tto) tto)
    ∧ (∀ (net : Str → Nat → NetOutcome) (probe : Str → Nat → Bool)
        (order : List (Str × List Nat)) (recs : List (Str × Nat))
        (localDomain tto : Str),
        isLocalDomain localDomain tto = false →
        extractDomain tto ≠ [] →
        recs ≠ [] →
        (∀ hp ∈ recs, sendToServerDirect net probe order (tsuf hp.1 ".".data) tto ≠ none) →
        Forward net probe order (.ok recs) localDomain tto
          = some ("failed to forward to all MX servers for domain: ".data
              ++ extractDomain tto)) := by
  refine ⟨tryPorts_all_fail, ?_, ?_⟩
  · intro net probe order mxErr localDomain tto hloc hdom
    simp [Forward, sendDirect, hloc, hdom]
  · intro net probe order recs localDomain tto hloc hdom hrecs hall
    simp [Forward, sendDirect, hloc, hdom, hrecs,
      mxLoop_all_fail net probe order tto (extractDomain tto) recs hall]

/-- Witness for C8's amended statement at concrete inputs. -/
theorem forward_error_reporting_witness :
    tryPorts (fun _ => NetOutcome.dialFail "boom".data) none [25]
        = some (wrapAttempt ((fun _ => NetOutcome.dialFail "boom".data) 25))
      ∧ Forward (fun _ _ => .dialFail "boom".data) (fun _ _ => false) providerPortsTable
            (.error "lookup failed".data) "mine.com".data "u@ex.com".data
          = sendToServerDirect (fun _ _ => .dialFail "boom".data) (fun _ _ => false)
              providerPortsTable (extractDomain "u@ex.com".data) "u@ex.com".data
      ∧ Forward (fun _ _ => .dialFail "boom".data) (fun _ _ => false) providerPortsTable
            (.ok [("mx1.ex.com.".data, 10)]) "mine.com".data "u@ex.com".data
          = some ("failed to forward to all MX servers for domain: ".data
              ++ extractDomain "u@ex.com".data) :=
  ⟨forward_error_reporting.1 (fun _ => NetOutcome.dialFail "boom".data) [25] none 25
      (by decide) (by decide),
   forward_error_reporting.2.1 (fun _ _ => .dialFail "boom".data) (fun _ _ => false)
      providerPortsTable "lookup failed".data "mine.com".data "u@ex.com".data
      (by decide) (by decide),
   forward_error_reporting.2.2 (fun _ _ => .dialFail "boom".data) (fun _ _ => false)
      providerPortsTable [("mx1.ex.com.".data, 10)] "mine.com".data "u@ex.com".data
      (by decide) (by decide) (by decide) (by decide)⟩

/-- When every read is non-empty and no proper prefix of the joined
payload ends in a terminator, no intermediate accumulation point does
either. -/
theorem boundary_no_term (rds : List Str) (hne : ∀ r ∈ rds, r ≠ [])
    (hpre : ∀ k, k < rds.flatten.length → isTerm (rds.flatten.take k) = false) :
    ∀ j, j + 1 < rds.length → isTerm ([] ++ (rds.take (j + 1)).flatten) = false := by
  intro j hj
  have hsplit : (rds.take (j + 1)).flatten ++ (rds.drop (j + 1)).flatten = rds.flatten := by
    rw [← List.flatten_append, List.take_append_drop]
  have hdropnil : rds.drop (j + 1) ≠ [] := by
    intro h
    have := List.drop_eq_nil_iff.mp h
    omega
  have hdropne : (rds.drop (j + 1)).flatten ≠ [] := by
    obtain ⟨r, t, hrt⟩ := List.exists_cons_of_ne_nil hdropnil
    have hrne : r ≠ [] := hne r (by
      have hmem : r ∈ rds.drop (j + 1) := by rw [hrt]; simp
      exact List.mem_of_mem_drop hmem)
    rw [hrt, List.flatten_cons]
    intro hcontra
    exact hrne (List.append_eq_nil.mp hcontra).1
  have hlt : (rds.take (j + 1)).flatten.length < rds.flatten.length := by
    rw [← hsplit, List.length_append]
    have : 0 < (rds.drop (j + 1)).flatten.length := List.length_pos.mpr hdropne
    omega
  have htake : rds.flatten.take (rds.take (j + 1)).flatten.length
      = (rds.take (j + 1)).flatten := by
    rw [← hsplit]
    exact List.take_left _ _
  rw [List.nil_append, ← htake]
  exact hpre _ hlt

/-! ## Claim C3 -/

/-- C3 counterexample: the payload `a\n.\nb\n.\n` delivered in one read
accumulates `a\n.\nb` (the suffix test only fires once, at the end),
but delivered one byte per read it terminates at the first lone-dot
line and accumulates just `a` — fragmentation changes both the
termination point and the message data. -/
theorem fragmented_data_differs_cx :
    ((runServer parseAll hokTrue dom0 ["DATA".data, "a\n.\nb\n.\n".data]).calls.map
        (fun m => m.raw)) = ["a\n.\nb".data]
      ∧ ((runServer parseAll hokTrue dom0
            ("DATA".data :: ("a\n.\nb\n.\n".data.map (fun c => [c])))).calls.map
          (fun m => m.raw)) = ["a".data]
      ∧ "a\n.\nb".data ≠ "a".data := by
  refine ⟨by decide, by decide, by decide⟩

/-- C3 (amended): for payloads in which no proper prefix ends in a data
terminator (the lone-dot line occurs only at the very end), any split
into non-empty reads terminates at that same line and produces exactly
the run — replies, handler calls with their parsed subject/body and
accumulated data, and final state — of the single-read delivery. -/
theorem fragmented_data_equiv :
    ∀ (parse : Str → Option (Str × Str)) (hok : MailMsg → Bool) (dom payload : Str)
      (rds rest : List Str),
      (∀ r ∈ rds, r ≠ []) →
      rds.flatten = payload →
      (∀ k, k < payload.length → isTerm (payload.take k) = false) →
      isTerm payload = true →
      runServer parse hok dom (dataChunk :: (rds ++ rest))
        = runServer parse hok dom (dataChunk :: payload :: rest) := by
  intro parse hok dom payload rds rest hne hflat hpre hterm
  have hpay : payload ≠ [] := by
    intro h
    rw [h] at hterm
    exact absurd hterm (by decide)
  have hrds : rds ≠ [] := by
    intro h
    rw [h] at hflat
    exact hpay hflat.symm
  have hstep : ∀ reads, runServer parse hok dom (dataChunk :: reads)
      = addReply (reply220 dom)
          (addReply reply354 (runSess parse hok dom initSess (some []) reads)) := by
    intro reads
    unfold runServer
    rw [runSess_dataMode parse hok dom initSess initSess reply354 dataChunk reads
      (by decide)
      (by rw [show trimSpace dataChunk = dataChunk from by decide]; exact processCommand_data dom initSess)]
  rw [hstep, hstep]
  have hb : ∀ j, j + 1 < rds.length →
      isTerm ([] ++ (rds.take (j + 1)).flatten) = false :=
    boundary_no_term rds hne (by rw [hflat]; exact hpre)
  rw [runSess_recv_run parse hok dom rest rds initSess [] hrds hb
      (by rw [List.nil_append, hflat]; exact hterm),
    runSess_recv_done parse hok dom initSess [] payload rest (by simpa using hterm)]
  rw [hflat]

/-- Witness for C3's amended statement: `hi\n.\n` split as
`["hi", "\n.\n"]` equals the single-read delivery. -/
theorem fragmented_data_equiv_witness :
    runServer parseAll hokTrue dom0 (dataChunk :: (["hi".data, "\n.\n".data] ++ []))
      = runServer parseAll hokTrue dom0 (dataChunk :: "hi\n.\n".data :: []) :=
  fragmented_data_equiv parseAll hokTrue dom0 "hi\n.\n".data
    ["hi".data, "\n.\n".data] [] (by decide) (by decide) (by decide) (by decide)

/-! ## Claim C1 -/

/-- C1: a session issuing HELO, `MAIL FROM:<s>`, one or more
`RCPT TO:<r_i>`, DATA, then a cleanly terminated parseable message whose
persistence succeeds, is answered 250 (HELO), 250 (MAIL), 250 per RCPT,
354 (DATA) and 250 on acceptance, and SaveMail is invoked exactly once,
with the full extracted recipient list, the parsed subject and body, and
the data accumulated across all reads (terminator stripped). -/
theorem smtp_happy_path_saves_once :
    ∀ (parse : Str → Option (Str × Str)) (rows : List MailDomain)
      (saveOk : SaveCall → Bool) (dom s r1 : Str) (rtl : List Str)
      (dataReads : List Str) (subj bod : Str),
      (∀ r ∈ dataReads, r ≠ []) →
      (∀ k, k < dataReads.flatten.length → isTerm (dataReads.flatten.take k) = false) →
      isTerm dataReads.flatten = true →
      parse (stripTerm dataReads.flatten) = some (subj, bod) →
      saveOk ⟨resolveOwner rows (extractEmail (angleWrap r1)),
              extractEmail (angleWrap s),
              (r1 :: rtl).map (fun r => extractEmail (angleWrap r)),
              subj, bod, stripTerm dataReads.flatten⟩ = true →
      runServer parse (hokOf rows saveOk) dom
          (heloChunk :: mkMailChunk s ::
            ((r1 :: rtl).map mkRcptChunk ++ (dataChunk :: dataReads)))
        = ⟨reply220 dom :: reply250Hello dom :: reply250OK ::
             ((r1 :: rtl).map (fun _ => reply250OK) ++ [reply354, reply250Accept]),
           [⟨extractEmail (angleWrap s),
             (r1 :: rtl).map (fun r => extractEmail (angleWrap r)),
             subj, bod, stripTerm dataReads.flatten⟩],
           initSess⟩
      ∧ saveTrace rows saveOk
            [⟨extractEmail (angleWrap s),
              (r1 :: rtl).map (fun r => extractEmail (angleWrap r)),
              subj, bod, stripTerm dataReads.flatten⟩]
          = [⟨resolveOwner rows (extractEmail (angleWrap r1)),
              extractEmail (angleWrap s),
              (r1 :: rtl).map (fun r => extractEmail (angleWrap r)),
              subj, bod, stripTerm dataReads.flatten⟩] := by
  intro parse rows saveOk dom s r1 rtl dataReads subj bod hne hpre hterm hparse hsave
  have hdne : dataReads ≠ [] := by
    intro h
    rw [h] at hterm
    exact absurd hterm (by decide)
  constructor
  · unfold runServer
    rw [runSess_go parse (hokOf rows saveOk) dom initSess initSess (reply250Hello dom)
        heloChunk _ (by decide)
        (by rw [show trimSpace heloChunk = heloChunk from by decide]
            exact processCommand_helo dom initSess),
      runSess_go parse (hokOf rows saveOk) dom initSess
        { initSess with mailFrom := extractEmail (angleWrap s) } reply250OK
        (mkMailChunk s) _ (trimSpace_mail_ne s)
        (by rw [trimSpace_mail]; exact processCommand_mail dom initSess s),
      runSess_rcptSeq parse (hokOf rows saveOk) dom (r1 :: rtl)
        { initSess with mailFrom := extractEmail (angleWrap s) } (dataChunk :: dataReads),
      runSess_dataMode parse (hokOf rows saveOk) dom _ _ reply354 dataChunk dataReads
        (by decide)
        (by rw [show trimSpace dataChunk = dataChunk from by decide]
            exact processCommand_data dom _)]
    have hrecv := runSess_recv_run parse (hokOf rows saveOk) dom [] dataReads
        ⟨extractEmail (angleWrap s), (r1 :: rtl).map fun r => extractEmail (angleWrap r)⟩ []
        hdne (boundary_no_term dataReads hne hpre)
        (by rw [List.nil_append]; exact hterm)
    rw [List.append_nil, List.nil_append] at hrecv
    show addReply (reply220 dom) (addReply (reply250Hello dom) (addReply reply250OK
        (addReplies ((r1 :: rtl).map fun _ => reply250OK) (addReply reply354
          (runSess parse (hokOf rows saveOk) dom
            ⟨extractEmail (angleWrap s), (r1 :: rtl).map fun r => extractEmail (angleWrap r)⟩
            (some []) dataReads))))) = _
    rw [hrecv]
    have hhok : hokOf rows saveOk
        ⟨extractEmail (angleWrap s),
          (r1 :: rtl).map (fun r => extractEmail (angleWrap r)),
          subj, bod, stripTerm dataReads.flatten⟩ = true := by
      simp only [hokOf, HandleMail, List.map_cons]
      simpa using hsave
    simp only [finishData, hparse, hhok]
    simp [addReply, addReplies, addCall, runSess_nil_cmd]
  · simp [saveTrace, HandleMail]

/-- Witness for C1: HELO, one sender, one recipient, a one-read message,
all collaborators succeeding. -/
theorem smtp_happy_path_saves_once_witness :
    runServer parseAll (hokOf [] (fun _ => true)) dom0
          (heloChunk :: mkMailChunk "s@e.x".data ::
            (("r@e.x".data :: []).map mkRcptChunk
              ++ (dataChunk :: ["Subject: hi\r\n\r\nbody\r\n.\r\n".data])))
        = ⟨reply220 dom0 :: reply250Hello dom0 :: reply250OK ::
             (("r@e.x".data :: []).map (fun _ => reply250OK) ++ [reply354, reply250Accept]),
           [⟨extractEmail (angleWrap "s@e.x".data),
             ("r@e.x".data :: []).map (fun r => extractEmail (angleWrap r)),
             [], "Subject: hi\r\n\r\nbody".data,
             stripTerm (["Subject: hi\r\n\r\nbody\r\n.\r\n".data]).flatten⟩],
           initSess⟩
      ∧ saveTrace [] (fun _ => true)
            [⟨extractEmail (angleWrap "s@e.x".data),
              ("r@e.x".data :: []).map (fun r => extractEmail (angleWrap r)),
              [], "Subject: hi\r\n\r\nbody".data,
              stripTerm (["Subject: hi\r\n\r\nbody\r\n.\r\n".data]).flatten⟩]
          = [⟨resolveOwner [] (extractEmail (angleWrap "r@e.x".data)),
              extractEmail (angleWrap "s@e.x".data),
              ("r@e.x".data :: []).map (fun r => extractEmail (angleWrap r)),
              [], "Subject: hi\r\n\r\nbody".data,
              stripTerm (["Subject: hi\r\n\r\nbody\r\n.\r\n".data]).flatten⟩] :=
  smtp_happy_path_saves_once parseAll [] (fun _ => true) dom0 "s@e.x".data "r@e.x".data []
    ["Subject: hi\r\n\r\nbody\r\n.\r\n".data] [] "Subject: hi\r\n\r\nbody".data
    (by decide) (by decide) (by decide) (by decide) (by decide)
